import Mathlib

set_option maxRecDepth 100000

/-!
Shallow embedding of the warehouse master orchestrator of
`src/warehouse/warehouse.go` (rudder-server).

Modelling conventions:
* the two metadata tables (`wh_staging_files`, `wh_uploads`) are lists of
  row records; SQL `WHERE`/`ORDER BY` become `List.filter` plus
  `List.insertionSort`;
* the lock-guarded process maps (`inProgressMap`, `lastExecMap`,
  `inRecoveryMap`) become lists with set / association-list semantics
  (Go map insert is idempotent, delete removes the key);
* clock reads (`timeutil.Now().Unix()`) become an explicit `now : Int`
  parameter in unix seconds; durations are measured in seconds;
* external driver calls (`whManager.CrashRecover`, `job.run()`) are
  represented by their boolean outcome, passed in as a parameter;
* a Go `panic` from a failed type assertion is modelled as `Option.none`.
-/

/-- Upload lifecycle state constant. Modelled from the spec: the state
constants referenced by `warehouse.go` (`WaitingState`, `ExportedDataState`,
`AbortedState`, `ExportingDataState`, `ExportingDataFailedState`) are
declared in a repository file that is not under `src/`; only the
distinctness of the five values matters to the scheduler. -/
def WaitingState : String := "waiting"

/-- Terminal success state (see `WaitingState` for provenance). -/
def ExportedDataState : String := "exported_data"

/-- Terminal failure state (see `WaitingState` for provenance). -/
def AbortedState : String := "aborted"

/-- Mid-export state (see `WaitingState` for provenance). -/
def ExportingDataState : String := "exporting_data"

/-- Failed mid-export state (see `WaitingState` for provenance). -/
def ExportingDataFailedState : String := "exporting_data_failed"

/-- `loadConfig` (`warehouse.go:115`): destination types eligible for crash
recovery. -/
def crashRecoverWarehouses : List String := ["RS"]

/-- One row of `wh_staging_files`, restricted to the columns the scheduler
reads (`SELECT id, location ...` plus the filter columns). -/
structure StagingFileT where
  id : Nat
  location : String
  sourceId : String
  destinationId : String
deriving DecidableEq, Repr

/-- One row of `wh_uploads` as the scheduler sees it. The `timings` and
`error` JSON columns are abstracted into the values that
`warehouseutils.TimingFromJSONString` and `gjson` extract from them in
`getPendingUploads`: `firstAttemptAt` (unix seconds of the first timing,
0 when absent) and `attempts` (the attempt counter of the last state). -/
structure UploadT where
  id : Nat
  sourceId : String
  destinationId : String
  destinationType : String
  startStagingFileId : Nat
  endStagingFileId : Nat
  status : String
  attempts : Int
  firstAttemptAt : Int
deriving DecidableEq, Repr

/-- The fields of `warehouseutils.WarehouseT` the scheduler reads. -/
structure WarehouseT where
  sourceId : String
  destinationId : String
  destType : String
  namespaceName : String
deriving DecidableEq, Repr

/-- `workerIdentifier` (`warehouse.go:135`). -/
def workerIdentifier (w : WarehouseT) : String :=
  w.destinationId ++ "_" ++ w.namespaceName

/-- `connectionString` (`warehouse.go:425`). -/
def connectionString (w : WarehouseT) : String :=
  "source:" ++ w.sourceId ++ ":destination:" ++ w.destinationId

/-- `ORDER BY id ASC` comparison on staging-file rows. -/
def stagingIdLe (a b : StagingFileT) : Prop := a.id ≤ b.id

instance : DecidableRel stagingIdLe :=
  fun a b => inferInstanceAs (Decidable (a.id ≤ b.id))

instance : IsTotal StagingFileT stagingIdLe :=
  ⟨fun a b => Nat.le_total a.id b.id⟩

instance : IsTrans StagingFileT stagingIdLe :=
  ⟨fun _ _ _ h1 h2 => Nat.le_trans h1 h2⟩

/-- `ORDER BY id ASC` comparison on upload rows. -/
def uploadIdLe (a b : UploadT) : Prop := a.id ≤ b.id

instance : DecidableRel uploadIdLe :=
  fun a b => inferInstanceAs (Decidable (a.id ≤ b.id))

instance : IsTotal UploadT uploadIdLe :=
  ⟨fun a b => Nat.le_total a.id b.id⟩

instance : IsTrans UploadT uploadIdLe :=
  ⟨fun _ _ _ h1 h2 => Nat.le_trans h1 h2⟩

/-- `ORDER BY id DESC` comparison on upload rows. -/
def uploadIdGe (a b : UploadT) : Prop := b.id ≤ a.id

instance : DecidableRel uploadIdGe :=
  fun a b => inferInstanceAs (Decidable (b.id ≤ a.id))

instance : IsTotal UploadT uploadIdGe :=
  ⟨fun a b => Nat.le_total b.id a.id⟩

instance : IsTrans UploadT uploadIdGe :=
  ⟨fun _ _ _ h1 h2 => Nat.le_trans h2 h1⟩

/-- `getStagingFiles` (`warehouse.go:279`):
`SELECT id, location FROM wh_staging_files WHERE id >= startID AND
id <= endID AND source_id = ... AND destination_id = ... ORDER BY id ASC`. -/
def getStagingFiles (staging : List StagingFileT) (w : WarehouseT)
    (startID endID : Nat) : List StagingFileT :=
  List.insertionSort stagingIdLe (staging.filter fun f =>
    decide (startID ≤ f.id) && decide (f.id ≤ endID) &&
    f.sourceId == w.sourceId && f.destinationId == w.destinationId)

/-- Row filter of the first query of `getPendingStagingFiles`
(`warehouse.go:306`): uploads of this `(type, source, destination)` in a
terminal status (`Exported` or `Aborted`). -/
def terminalUploadMatches (w : WarehouseT) (u : UploadT) : Bool :=
  u.destinationType == w.destType && u.sourceId == w.sourceId &&
  u.destinationId == w.destinationId &&
  (u.status == ExportedDataState || u.status == AbortedState)

/-- First query of `getPendingStagingFiles` (`warehouse.go:306-311`):
`SELECT end_staging_file_id ... ORDER BY id DESC` scanned with `QueryRow`,
i.e. the `end_staging_file_id` of the matching row with the greatest upload
id; `lastStagingFileID` stays 0 when no row matches (`sql.ErrNoRows` is
ignored). -/
def lastTerminalEndStagingFileId (uploads : List UploadT) (w : WarehouseT) : Nat :=
  match List.insertionSort uploadIdGe (uploads.filter (terminalUploadMatches w)) with
  | [] => 0
  | u :: _ => u.endStagingFileId

/-- Row filter of the second query of `getPendingStagingFiles`
(`warehouse.go:313-317`). -/
def pendingStagingFileMatches (w : WarehouseT) (lastId : Nat) (f : StagingFileT) : Bool :=
  decide (lastId < f.id) && f.sourceId == w.sourceId && f.destinationId == w.destinationId

/-- `getPendingStagingFiles` (`warehouse.go:304-338`). -/
def getPendingStagingFiles (uploads : List UploadT) (staging : List StagingFileT)
    (w : WarehouseT) : List StagingFileT :=
  List.insertionSort stagingIdLe
    (staging.filter (pendingStagingFileMatches w (lastTerminalEndStagingFileId uploads w)))

/-- Row filter of `getPendingUploads` (`warehouse.go:387`): uploads of this
`(type, source, destination)` whose status is neither `Exported` nor
`Aborted`. -/
def pendingUploadMatches (destType : String) (w : WarehouseT) (u : UploadT) : Bool :=
  u.destinationType == destType && u.sourceId == w.sourceId &&
  u.destinationId == w.destinationId &&
  !(u.status == ExportedDataState) && !(u.status == AbortedState)

/-- `getPendingUploads` (`warehouse.go:385-423`), `ORDER BY id asc`. The Go
function also returns `anyPending = (length > 0)`, which callers test; here
callers test emptiness of the list directly. -/
def getPendingUploads (uploads : List UploadT) (destType : String)
    (w : WarehouseT) : List UploadT :=
  List.insertionSort uploadIdLe (uploads.filter (pendingUploadMatches destType w))

/-- The mutable process state touched by the scheduler: the lock-guarded
maps of `warehouse.go:53-57` plus the two metadata tables and the next id
the `wh_uploads` sequence will assign (`RETURNING id` in `initUpload`). -/
structure WHState where
  inProgressMap : List String
  lastExecMap : List (String × Int)
  inRecoveryMap : List String
  uploadsTable : List UploadT
  stagingTable : List StagingFileT
  nextUploadId : Nat
deriving DecidableEq, Repr

/-- `isDestInProgress` (`warehouse.go:439`). -/
def isDestInProgress (s : WHState) (w : WarehouseT) : Bool :=
  s.inProgressMap.contains (connectionString w)

/-- `setDestInProgress` (`warehouse.go:429`): Go map insert (idempotent) or
delete of the pair's key. -/
def setDestInProgress (s : WHState) (w : WarehouseT) (starting : Bool) : WHState :=
  if starting then
    if connectionString w ∈ s.inProgressMap then s
    else { s with inProgressMap := connectionString w :: s.inProgressMap }
  else
    { s with inProgressMap := s.inProgressMap.filter (fun k => !(k == connectionString w)) }

/-- Go `strconv.ParseInt(s, 10, 64)` with the returned error discarded, as
at `warehouse.go:452`: a syntactically invalid string (including `""`)
yields 0. 64-bit range clamping is not modelled (sync frequencies are
small). -/
def parseInt64 (s : String) : Int :=
  let digitsVal : List Char → Int :=
    fun ds => ds.foldl (fun a c => a * 10 + ((c.toNat : Int) - 48)) 0
  let core : List Char → Int := fun ds =>
    if ds ≠ [] ∧ ds.all (fun c => c.isDigit) then digitsVal ds else 0
  match s.toList with
  | '-' :: rest => -(core rest)
  | '+' :: rest => core rest
  | ds => core ds

/-- `uploadFrequencyExceeded` (`warehouse.go:449-461`): true iff the pair
has a recorded `lastExec` and `now - lastExec < freqInS`, where `freqInS`
is the parsed `syncFrequency` in minutes times 60 when `syncFrequency` is
non-empty, else the default `uploadFreqInS`. -/
def uploadFrequencyExceeded (now : Int) (lastExecMap : List (String × Int))
    (uploadFreqInS : Int) (w : WarehouseT) (syncFrequency : String) : Bool :=
  let freqInS : Int := if syncFrequency ≠ "" then parseInt64 syncFrequency * 60 else uploadFreqInS
  match lastExecMap.lookup (connectionString w) with
  | some lastExecTime => decide (now - lastExecTime < freqInS)
  | none => false

/-- `setLastExec` (`warehouse.go:463-467`): record `now` as the pair's last
start time (association-list update). -/
def setLastExec (now : Int) (s : WHState) (w : WarehouseT) : WHState :=
  { s with lastExecMap :=
      (connectionString w, now) :: s.lastExecMap.filter (fun p => !(p.1 == connectionString w)) }

/-- Modelled from the spec: `canStartUpload` is called at
`warehouse.go:541` but defined in a repository file that is not under
`src/`. Spec §4.D frequency gate: "a pair may start iff no upload has been
started within `syncFrequency` minutes (or the default `uploadFreqInS`)",
i.e. the negation of `uploadFrequencyExceeded` (which is in `src/`). -/
def canStartUpload (now : Int) (lastExecMap : List (String × Int))
    (uploadFreqInS : Int) (w : WarehouseT) (syncFrequency : String) : Bool :=
  !(uploadFrequencyExceeded now lastExecMap uploadFreqInS w syncFrequency)

/-- Modelled from the spec: `canStartPendingUpload` is called at
`warehouse.go:509` but defined in a repository file that is not under
`src/`. Spec §4.D retry gate: a pending upload may start iff
`attempts < minRetryAttempts` OR `now - firstAttemptAt < retryTimeWindow`
(times in unix seconds, window in seconds). -/
def canStartPendingUpload (now minRetryAttempts retryTimeWindow : Int)
    (u : UploadT) : Bool :=
  decide (u.attempts < minRetryAttempts) ||
  decide (now - u.firstAttemptAt < retryTimeWindow)

/-- The configuration a router's main loop reads (subset of
`loadConfig`). -/
structure MainLoopConfig where
  destType : String
  uploadFreqInS : Int
  minRetryAttempts : Int
  retryTimeWindow : Int
  stagingFilesBatchSize : Nat
deriving Repr

/-- Fuel-indexed helper for `chunkList`; the fuel bounds the number of Go
loop iterations. -/
def chunkListAux (B : Nat) : Nat → List α → List (List α)
  | 0, _ => []
  | _ + 1, [] => []
  | fuel + 1, a :: l => (a :: l).take B :: chunkListAux B fuel ((a :: l).drop B)

/-- The staging-file batching loop of `mainLoop` (`warehouse.go:559-588`):
consecutive slices `l[count : count+B]` with the last slice possibly
shorter. When `0 < B` each iteration consumes at least one element, so
`l.length` iterations always suffice and the fuel never runs out (for
`B = 0` the Go loop would not terminate). -/
def chunkList (B : Nat) (l : List α) : List (List α) :=
  chunkListAux B l.length l

/-- `initUpload` (`warehouse.go:340-383`): insert a `Waiting` upload row
covering `[chunk[0].id .. chunk[last].id]`; the id Postgres returns is
modelled by `nextUploadId`. The `getD 0` defaults are unreachable because
every chunk passed in is non-empty (Go would panic on
`jsonUploadsList[0]`). -/
def initUpload (destType : String) (w : WarehouseT) (chunk : List StagingFileT)
    (s : WHState) : UploadT × WHState :=
  let upload : UploadT := {
    id := s.nextUploadId
    sourceId := w.sourceId
    destinationId := w.destinationId
    destinationType := destType
    startStagingFileId := (chunk.head?.map (fun f => f.id)).getD 0
    endStagingFileId := (chunk.getLast?.map (fun f => f.id)).getD 0
    status := WaitingState
    attempts := 0
    firstAttemptAt := 0 }
  (upload, { s with
    uploadsTable := s.uploadsTable ++ [upload]
    nextUploadId := s.nextUploadId + 1 })

/-- An upload job as observed by the worker that handles it: the upload row
its `upload` pointer exposes, and its captured `stagingFiles` slice. -/
structure UploadJobT where
  upload : UploadT
  stagingFiles : List StagingFileT
deriving DecidableEq, Repr

/-- The fresh-upload job-building loop (`warehouse.go:562-588`): one
`initUpload` per chunk; each job captures its own chunk, and `&upload`
points at a variable declared inside the loop body, so no aliasing occurs
on this path. -/
def createUploadJobs (destType : String) (w : WarehouseT) :
    List (List StagingFileT) → WHState → List UploadJobT × WHState
  | [], s => ([], s)
  | c :: cs, s =>
    let p := initUpload destType w c s
    let rest := createUploadJobs destType w cs p.2
    (UploadJobT.mk p.1 c :: rest.1, rest.2)

/-- Result of the pending-uploads loop: the per-iteration `stagingFiles`
slices (captured by value), the loop variable's final value, and whether
the loop stopped because the retry gate rejected an upload. -/
structure PendingLoopResult where
  capturedStagingFiles : List (List StagingFileT)
  loopVarFinal : Option UploadT
  rejected : Bool
deriving DecidableEq, Repr

/-- The pending-uploads loop (`warehouse.go:508-535`). Go semantics note:
`for _, pendingUpload := range pendingUploads` declares ONE loop variable
reused by every iteration (Go pre-1.22), and each constructed job stores
`upload: &pendingUpload` (`warehouse.go:525`) — a pointer to that single
variable. The embedding therefore records the per-iteration `stagingFiles`
slices, which are captured by value, separately from the loop variable's
final value, which is what every job's `upload` pointer exposes by the time
the worker dereferences it. On gate rejection the loop breaks after
`setDestInProgress(warehouse, false)`, leaving the rejected upload in the
loop variable. -/
def pendingUploadsLoop (gate : UploadT → Bool)
    (files : UploadT → List StagingFileT) : List UploadT → PendingLoopResult
  | [] => ⟨[], none, false⟩
  | u :: rest =>
    if gate u then
      let r := pendingUploadsLoop gate files rest
      ⟨files u :: r.capturedStagingFiles, some (r.loopVarFinal.getD u), r.rejected⟩
    else ⟨[], some u, true⟩

/-- The batch the worker observes for a pending-uploads pass: every job's
`upload` field is the loop variable's final value (see
`pendingUploadsLoop`). -/
def observedJobs (r : PendingLoopResult) : List UploadJobT :=
  match r.loopVarFinal with
  | none => []
  | some v => r.capturedStagingFiles.map (fun fs => UploadJobT.mk v fs)

/-- Observable steps of one `mainLoop` pass over a warehouse binding, in
program order. -/
inductive MainLoopEvent where
  | crashRecover (destinationId : String) (ok : Bool)
  | queryPendingUploads
  | setLastExecAt (key : String) (t : Int)
  | queryPendingStagingFiles
  | enqueue (batch : List UploadJobT)
deriving DecidableEq, Repr

/-- The retry gate as instantiated by the main loop. -/
def pendingGate (cfg : MainLoopConfig) (now : Int) : UploadT → Bool :=
  canStartPendingUpload now cfg.minRetryAttempts cfg.retryTimeWindow

/-- The staging-file range query the pending-uploads loop issues per upload
(`warehouse.go:514`). -/
def pendingFiles (s : WHState) (w : WarehouseT) : UploadT → List StagingFileT :=
  fun u => getStagingFiles s.stagingTable w u.startStagingFileId u.endStagingFileId

/-- The pending-uploads branch of `mainLoop` (`warehouse.go:505-539`):
build the batch via `pendingUploadsLoop`; a gate rejection inside the loop
clears the in-progress bit; an empty batch means `continue`, otherwise the
batch is enqueued. -/
def pendingUploadsPath (cfg : MainLoopConfig) (now : Int) (w : WarehouseT) (s : WHState)
    (pending : List UploadT) : WHState × List MainLoopEvent :=
  if observedJobs (pendingUploadsLoop (pendingGate cfg now) (pendingFiles s w) pending) = [] then
    (if (pendingUploadsLoop (pendingGate cfg now) (pendingFiles s w) pending).rejected then
       setDestInProgress s w false
     else s,
     [MainLoopEvent.queryPendingUploads])
  else
    (if (pendingUploadsLoop (pendingGate cfg now) (pendingFiles s w) pending).rejected then
       setDestInProgress s w false
     else s,
     [MainLoopEvent.queryPendingUploads,
      MainLoopEvent.enqueue
        (observedJobs (pendingUploadsLoop (pendingGate cfg now) (pendingFiles s w) pending))])

/-- The tail of the fresh-upload branch of `mainLoop`
(`warehouse.go:548-589`), entered with `s1 = setLastExec now s w` already
applied: fetch pending staging files; when none, clear the in-progress bit
and `continue`; otherwise create one upload per chunk and enqueue the whole
batch. -/
def freshFilesPath (cfg : MainLoopConfig) (now : Int) (w : WarehouseT) (s1 : WHState) :
    WHState × List MainLoopEvent :=
  if getPendingStagingFiles s1.uploadsTable s1.stagingTable w = [] then
    (setDestInProgress s1 w false,
     [MainLoopEvent.queryPendingUploads,
      MainLoopEvent.setLastExecAt (connectionString w) now,
      MainLoopEvent.queryPendingStagingFiles])
  else
    ((createUploadJobs cfg.destType w
        (chunkList cfg.stagingFilesBatchSize
          (getPendingStagingFiles s1.uploadsTable s1.stagingTable w)) s1).2,
     [MainLoopEvent.queryPendingUploads,
      MainLoopEvent.setLastExecAt (connectionString w) now,
      MainLoopEvent.queryPendingStagingFiles,
      MainLoopEvent.enqueue
        (createUploadJobs cfg.destType w
          (chunkList cfg.stagingFilesBatchSize
            (getPendingStagingFiles s1.uploadsTable s1.stagingTable w)) s1).1])

/-- The body of `mainLoop` after the in-progress / crash-recovery prologue
(`warehouse.go:503-590`): either the pending-uploads path or the
fresh-upload path (frequency gate, then `setLastExec`, then the
staging-file fetch). -/
def processAfterRecovery (cfg : MainLoopConfig) (now : Int) (syncFrequency : String)
    (w : WarehouseT) (s : WHState) : WHState × List MainLoopEvent :=
  if getPendingUploads s.uploadsTable cfg.destType w = [] then
    if canStartUpload now s.lastExecMap cfg.uploadFreqInS w syncFrequency = false then
      (setDestInProgress s w false, [MainLoopEvent.queryPendingUploads])
    else
      freshFilesPath cfg now w (setLastExec now s w)
  else
    pendingUploadsPath cfg now w s (getPendingUploads s.uploadsTable cfg.destType w)

/-- Go `delete(inRecoveryMap, warehouse.Destination.ID)`
(`warehouse.go:501`). -/
def recoveryErase (s : WHState) (w : WarehouseT) : WHState :=
  { s with inRecoveryMap := s.inRecoveryMap.filter (fun d => !(d == w.destinationId)) }

/-- One `mainLoop` iteration for a single warehouse binding
(`warehouse.go:482-590`). `crashRecoverOk` is the outcome of the external
`whManager.CrashRecover` driver call, consulted only when the destination
is in the recovery set. -/
def processWarehouse (cfg : MainLoopConfig) (now : Int) (syncFrequency : String)
    (crashRecoverOk : Bool) (w : WarehouseT) (s : WHState) :
    WHState × List MainLoopEvent :=
  if isDestInProgress s w then (s, [])
  else
    if w.destinationId ∈ (setDestInProgress s w true).inRecoveryMap then
      if crashRecoverOk then
        ((processAfterRecovery cfg now syncFrequency w
            (recoveryErase (setDestInProgress s w true) w)).1,
         MainLoopEvent.crashRecover w.destinationId true ::
           (processAfterRecovery cfg now syncFrequency w
             (recoveryErase (setDestInProgress s w true) w)).2)
      else
        (setDestInProgress (setDestInProgress s w true) w false,
         [MainLoopEvent.crashRecover w.destinationId false])
    else
      processAfterRecovery cfg now syncFrequency w (setDestInProgress s w true)

/-- Row filter of `setInterruptedDestinations` (`warehouse.go:621`):
uploads of this destination type in `ExportingData` or
`ExportingDataFailed`. -/
def interruptedMatches (destType : String) (u : UploadT) : Bool :=
  u.destinationType == destType &&
  (u.status == ExportingDataState || u.status == ExportingDataFailedState)

/-- Go map insert into the recovery set (idempotent). -/
def insertRecoveryKey (m : List String) (d : String) : List String :=
  if d ∈ m then m else d :: m

/-- `setInterruptedDestinations` (`warehouse.go:617-637`): for destination
types in `crashRecoverWarehouses` record the `destination_id` of every
matching upload in the recovery set; for any other destination type return
immediately and record nothing. -/
def setInterruptedDestinations (destType : String) (uploads : List UploadT)
    (m : List String) : List String :=
  if crashRecoverWarehouses.contains destType then
    uploads.foldl
      (fun acc u => if interruptedMatches destType u then insertRecoveryKey acc u.destinationId else acc)
      m
  else m

/-- Outcome of one upload job as the worker loop sees it: the upload id it
reports on, and whether `job.run()` (the external warehouse-manager
pipeline) returned nil. -/
structure WorkerJobOutcome where
  uploadId : Nat
  runOk : Bool
deriving DecidableEq, Repr

/-- Observable steps of the worker's per-batch loop, in program order. -/
inductive WorkerEvent where
  | runJob (uploadId : Nat) (ok : Bool)
  | recordDeliveryStatus (uploadId : Nat)
  | incFailedUploads (uploadId : Nat)
  | onSuccessfulUpload (uploadId : Nat)
deriving DecidableEq, Repr

/-- The per-batch job loop of `handleUploadJobs` (`warehouse.go:163-174`):
run each job in order; always record delivery status for the job just run;
on error increment the failure counter and break; on success fire
`onSuccessfulUpload` and continue. -/
def handleUploadJobsLoop : List WorkerJobOutcome → List WorkerEvent
  | [] => []
  | j :: rest =>
    WorkerEvent.runJob j.uploadId j.runOk ::
    WorkerEvent.recordDeliveryStatus j.uploadId ::
      (if j.runOk then WorkerEvent.onSuccessfulUpload j.uploadId :: handleUploadJobsLoop rest
       else [WorkerEvent.incFailedUploads j.uploadId])

/-- The trace the per-batch loop emits for one successfully handled job. -/
def okJobEvents (j : WorkerJobOutcome) : List WorkerEvent :=
  [WorkerEvent.runJob j.uploadId j.runOk,
   WorkerEvent.recordDeliveryStatus j.uploadId,
   WorkerEvent.onSuccessfulUpload j.uploadId]

/-- Admission step of `handleUploadJobs` (`warehouse.go:142-158`): under
`activeWorkerCountLock` the worker increments `activeWorkerCount` only
after observing it strictly below `noOfWorkers`; on `none` it releases the
lock, sleeps `workerRetrySleep` and retries. -/
def tryAcquireWorkerSlot (noOfWorkers activeWorkers : Nat) : Option Nat :=
  if activeWorkers < noOfWorkers then some (activeWorkers + 1) else none

/-- The atomic (lock-protected) transitions of `activeWorkerCount`: a
guarded increment (`warehouse.go:146-157`) or the single decrement a
worker performs when its batch is finished (`warehouse.go:177-180`, only
ever executed by a worker that has previously acquired, hence `0 < n`). -/
inductive ActiveWorkerStep (noOfWorkers : Nat) : Nat → Nat → Prop where
  | acquire (n m : Nat) :
      tryAcquireWorkerSlot noOfWorkers n = some m → ActiveWorkerStep noOfWorkers n m
  | release (n : Nat) : 0 < n → ActiveWorkerStep noOfWorkers n (n - 1)

/-- Counter values reachable from process start (`activeWorkerCount = 0`)
by lock-protected steps. -/
inductive ActiveWorkerReachable (noOfWorkers : Nat) : Nat → Prop where
  | init : ActiveWorkerReachable noOfWorkers 0
  | step (n m : Nat) : ActiveWorkerReachable noOfWorkers n →
      ActiveWorkerStep noOfWorkers n m → ActiveWorkerReachable noOfWorkers m

/-- A Go `interface{}` value as `getNamespace` inspects it. -/
inductive GoValue where
  | null
  | str (s : String)
  | boolVal (b : Bool)
  | intVal (n : Int)
  | mapVal (entries : List (String × GoValue))

/-- Go map indexing: a missing key yields the zero value `nil`. -/
def goMapLookup (entries : List (String × GoValue)) (key : String) : GoValue :=
  match entries with
  | [] => GoValue.null
  | e :: rest => if e.1 = key then e.2 else goMapLookup rest key

/-- `getNamespace` (`warehouse.go:259-277`). `none` models a Go panic from
a failed type assertion (`config.(map[string]interface{})` on a non-map, or
`.(string)` on a missing / non-string entry). The external helpers
`warehouseutils.ToProviderCase`, `warehouseutils.ToSafeNamespace` and the
`wh_schemas` lookup `warehouseutils.GetNamespace` are abstracted as the
parameters `toProviderCase`, `toSafeNamespace` and `whSchemaNamespace`. -/
def getNamespace (toProviderCase toSafeNamespace : String → String → String)
    (whSchemaNamespace : Option String) (sourceName : String)
    (destType : String) (config : GoValue) : Option String :=
  match config with
  | GoValue.mapVal entries =>
    if destType = "CLICKHOUSE" then
      match goMapLookup entries "database" with
      | GoValue.str s => some s
      | _ => none
    else
      match goMapLookup entries "namespace" with
      | GoValue.null =>
        some (match whSchemaNamespace with
          | some ns => ns
          | none => toProviderCase destType (toSafeNamespace destType sourceName))
      | GoValue.str ns =>
        if 0 < ns.trim.length then
          some (toProviderCase destType (toSafeNamespace destType ns))
        else
          some (match whSchemaNamespace with
            | some ns2 => ns2
            | none => toProviderCase destType (toSafeNamespace destType sourceName))
      | _ => none
  | _ => none

/-! ## Generic helper lemmas -/

theorem mem_insertRecoveryKey (m : List String) (k d : String) :
    d ∈ insertRecoveryKey m k ↔ d = k ∨ d ∈ m := by
  unfold insertRecoveryKey
  split
  next h =>
    constructor
    · exact Or.inr
    · rintro (rfl | hd)
      · exact h
      · exact hd
  next => simp [List.mem_cons]

theorem mem_setInterrupted_foldl (destType d : String) :
    ∀ (uploads : List UploadT) (m : List String),
      d ∈ uploads.foldl
          (fun acc u =>
            if interruptedMatches destType u then insertRecoveryKey acc u.destinationId else acc) m ↔
        d ∈ m ∨ ∃ u, u ∈ uploads ∧ interruptedMatches destType u = true ∧ u.destinationId = d := by
  intro uploads
  induction uploads with
  | nil =>
    intro m
    simp
  | cons u us ih =>
    intro m
    rw [List.foldl_cons]
    by_cases h : interruptedMatches destType u = true
    · rw [if_pos h, ih, mem_insertRecoveryKey]
      constructor
      · rintro ((rfl | hm) | ⟨v, hv, hma, hd⟩)
        · exact Or.inr ⟨u, List.mem_cons_self u us, h, rfl⟩
        · exact Or.inl hm
        · exact Or.inr ⟨v, List.mem_cons_of_mem u hv, hma, hd⟩
      · rintro (hm | ⟨v, hv, hma, hd⟩)
        · exact Or.inl (Or.inr hm)
        · rcases List.mem_cons.mp hv with rfl | hv2
          · exact Or.inl (Or.inl hd.symm)
          · exact Or.inr ⟨v, hv2, hma, hd⟩
    · rw [if_neg h, ih]
      constructor
      · rintro (hm | ⟨v, hv, hma, hd⟩)
        · exact Or.inl hm
        · exact Or.inr ⟨v, List.mem_cons_of_mem u hv, hma, hd⟩
      · rintro (hm | ⟨v, hv, hma, hd⟩)
        · exact Or.inl hm
        · rcases List.mem_cons.mp hv with rfl | hv2
          · exact absurd hma h
          · exact Or.inr ⟨v, hv2, hma, hd⟩

theorem le_foldr_max_of_mem {x : Nat} {l : List Nat} (h : x ∈ l) :
    x ≤ l.foldr max 0 := by
  induction l with
  | nil => cases h
  | cons a l ih =>
    rcases List.mem_cons.mp h with rfl | h2
    · exact Nat.le_max_left _ _
    · exact Nat.le_trans (ih h2) (Nat.le_max_right _ _)

theorem foldr_max_le {b : Nat} {l : List Nat} (h : ∀ x ∈ l, x ≤ b) :
    l.foldr max 0 ≤ b := by
  induction l with
  | nil => exact Nat.zero_le b
  | cons a l ih =>
    exact Nat.max_le.mpr
      ⟨h a (List.mem_cons_self a l), ih fun x hx => h x (List.mem_cons_of_mem a hx)⟩

theorem handleUploadJobsLoop_ok_append (suffix : List WorkerJobOutcome) :
    ∀ pre : List WorkerJobOutcome, (∀ j ∈ pre, j.runOk = true) →
      handleUploadJobsLoop (pre ++ suffix) =
        (pre.map okJobEvents).flatten ++ handleUploadJobsLoop suffix := by
  intro pre
  induction pre with
  | nil =>
    intro _
    simp
  | cons j l ih =>
    intro h
    have hj : j.runOk = true := h j (List.mem_cons_self j l)
    have hl := ih fun x hx => h x (List.mem_cons_of_mem j hx)
    simp [handleUploadJobsLoop, hj, okJobEvents, hl]

/-! ## C5 -/

/-- C5: a worker handles the jobs of a batch sequentially in batch order;
the first job whose `run()` fails stops the batch (the remaining jobs are
skipped); delivery status is recorded for every executed job, the failure
counter is incremented exactly on the failed job, and only successful jobs
fire `onSuccessfulUpload`. The emitted event trace is exactly the
per-job success events of the leading successful jobs followed by the
failed job's `run` / `recordDeliveryStatus` / `incFailedUploads` events;
a batch of only successful jobs emits every job's success events. -/
theorem handleUploadJobs_batch_order_spec
    (pre : List WorkerJobOutcome) (bad : WorkerJobOutcome) (post : List WorkerJobOutcome)
    (jobs : List WorkerJobOutcome)
    (hpre : ∀ j ∈ pre, j.runOk = true) (hbad : bad.runOk = false)
    (hjobs : ∀ j ∈ jobs, j.runOk = true) :
    handleUploadJobsLoop (pre ++ bad :: post) =
      (pre.map okJobEvents).flatten ++
        [WorkerEvent.runJob bad.uploadId false,
         WorkerEvent.recordDeliveryStatus bad.uploadId,
         WorkerEvent.incFailedUploads bad.uploadId] ∧
    handleUploadJobsLoop jobs = (jobs.map okJobEvents).flatten := by
  constructor
  · rw [handleUploadJobsLoop_ok_append (bad :: post) pre hpre]
    simp [handleUploadJobsLoop, hbad]
  · have h := handleUploadJobsLoop_ok_append [] jobs hjobs
    simpa [handleUploadJobsLoop] using h

theorem handleUploadJobs_batch_order_spec_witness :
    (∀ j ∈ ([⟨1, true⟩] : List WorkerJobOutcome), j.runOk = true) ∧
    handleUploadJobsLoop (([⟨1, true⟩] : List WorkerJobOutcome) ++ ⟨2, false⟩ :: [⟨3, true⟩]) =
      (([⟨1, true⟩] : List WorkerJobOutcome).map okJobEvents).flatten ++
        [WorkerEvent.runJob 2 false,
         WorkerEvent.recordDeliveryStatus 2,
         WorkerEvent.incFailedUploads 2] ∧
    handleUploadJobsLoop ([⟨4, true⟩] : List WorkerJobOutcome) =
      (([⟨4, true⟩] : List WorkerJobOutcome).map okJobEvents).flatten :=
  ⟨by decide,
   (handleUploadJobs_batch_order_spec [⟨1, true⟩] ⟨2, false⟩ [⟨3, true⟩] [⟨4, true⟩]
      (by decide) rfl (by decide)).1,
   (handleUploadJobs_batch_order_spec [⟨1, true⟩] ⟨2, false⟩ [⟨3, true⟩] [⟨4, true⟩]
      (by decide) rfl (by decide)).2⟩

/-! ## C6 -/

/-- C6: the shared counter `activeWorkerCount` never exceeds `noOfWorkers`:
starting from 0, every lock-protected step is either the guarded increment
(`tryAcquireWorkerSlot`, which succeeds only when the observed count is
strictly below `noOfWorkers`; otherwise the worker sleeps and retries) or
the single decrement a worker performs when its batch is finished, so every
reachable counter value is at most `noOfWorkers`. -/
theorem activeWorkerCount_bounded (noOfWorkers c : Nat)
    (h : ActiveWorkerReachable noOfWorkers c) : c ≤ noOfWorkers := by
  induction h with
  | init => exact Nat.zero_le _
  | step n m _ hs ih =>
    cases hs with
    | acquire _ hacq =>
      unfold tryAcquireWorkerSlot at hacq
      split at hacq
      next hlt =>
        injection hacq with hm
        omega
      next => exact Option.noConfusion hacq
    | release hp => omega

theorem activeWorkerCount_bounded_witness : 1 ≤ 8 :=
  activeWorkerCount_bounded 8 1
    (ActiveWorkerReachable.step 0 1 ActiveWorkerReachable.init
      (ActiveWorkerStep.acquire 0 1 rfl))

/-! ## C7 -/

/-- C7 counterexample: for a destination type outside
`crashRecoverWarehouses` (here `BQ`), `setInterruptedDestinations` records
nothing, even though an upload of that type sits in `ExportingData`, so the
claim "for every destination type ... records the destination_id of every
upload ... in ExportingData or ExportingDataFailed" fails on the code. -/
theorem setInterruptedDestinations_skips_other_destTypes :
    ¬ ("D1" ∈ setInterruptedDestinations "BQ"
        [{ id := 1, sourceId := "S1", destinationId := "D1", destinationType := "BQ",
           startStagingFileId := 1, endStagingFileId := 2, status := ExportingDataState,
           attempts := 0, firstAttemptAt := 0 }] []) := by
  decide

/-- C7 (amended): for a destination type in `crashRecoverWarehouses`
(which `loadConfig` fixes to `["RS"]`), router setup records in the
recovery set exactly the prior contents plus the `destination_id` of every
upload of that destination type whose status is `ExportingData` or
`ExportingDataFailed`; for any other destination type the function returns
immediately and records nothing. -/
theorem setInterruptedDestinations_crashRecover_spec (destType d : String)
    (uploads : List UploadT) (m : List String)
    (h : crashRecoverWarehouses.contains destType = true) :
    d ∈ setInterruptedDestinations destType uploads m ↔
      d ∈ m ∨ ∃ u, u ∈ uploads ∧ interruptedMatches destType u = true ∧ u.destinationId = d := by
  unfold setInterruptedDestinations
  rw [if_pos h]
  exact mem_setInterrupted_foldl destType d uploads m

theorem setInterruptedDestinations_crashRecover_spec_witness :
    crashRecoverWarehouses.contains "RS" = true ∧
    "D1" ∈ setInterruptedDestinations "RS"
      [{ id := 1, sourceId := "S1", destinationId := "D1", destinationType := "RS",
         startStagingFileId := 1, endStagingFileId := 2, status := ExportingDataFailedState,
         attempts := 0, firstAttemptAt := 0 }] [] :=
  ⟨rfl,
   (setInterruptedDestinations_crashRecover_spec "RS" "D1"
      [{ id := 1, sourceId := "S1", destinationId := "D1", destinationType := "RS",
         startStagingFileId := 1, endStagingFileId := 2, status := ExportingDataFailedState,
         attempts := 0, firstAttemptAt := 0 }] [] rfl).mpr
     (Or.inr ⟨_, List.mem_cons_self _ _, by decide, rfl⟩)⟩

/-! ## C10 -/

/-- C10: for destination type `CLICKHOUSE`, `getNamespace` returns the
destination config's `"database"` entry verbatim whenever that entry is a
string — independently of the sanitisation helpers, of any recorded prior
namespace, and of the source name — and panics (modelled `none`) when the
config is not a map or its `"database"` entry is absent or not a string. -/
theorem getNamespace_clickhouse_spec
    (toProviderCase toSafeNamespace : String → String → String)
    (whSchemaNamespace : Option String) (sourceName : String)
    (entries : List (String × GoValue)) :
    (∀ s, goMapLookup entries "database" = GoValue.str s →
      getNamespace toProviderCase toSafeNamespace whSchemaNamespace sourceName "CLICKHOUSE"
        (GoValue.mapVal entries) = some s) ∧
    ((∀ s, goMapLookup entries "database" ≠ GoValue.str s) →
      getNamespace toProviderCase toSafeNamespace whSchemaNamespace sourceName "CLICKHOUSE"
        (GoValue.mapVal entries) = none) ∧
    (∀ v : GoValue, (∀ es, v ≠ GoValue.mapVal es) →
      getNamespace toProviderCase toSafeNamespace whSchemaNamespace sourceName "CLICKHOUSE"
        v = none) := by
  have hred : getNamespace toProviderCase toSafeNamespace whSchemaNamespace sourceName
      "CLICKHOUSE" (GoValue.mapVal entries) =
      (match goMapLookup entries "database" with
       | GoValue.str s => some s
       | _ => none) := rfl
  refine ⟨?_, ?_, ?_⟩
  · intro s h
    rw [hred, h]
  · intro h
    rw [hred]
    cases hdb : goMapLookup entries "database" with
    | null => rfl
    | str s => exact absurd hdb (h s)
    | boolVal b => rfl
    | intVal n => rfl
    | mapVal es => rfl
  · intro v hv
    cases v with
    | null => rfl
    | str s => rfl
    | boolVal b => rfl
    | intVal n => rfl
    | mapVal es => exact absurd rfl (hv es)

theorem getNamespace_clickhouse_spec_witness :
    getNamespace (fun _ s => s ++ "_SAFE") (fun _ s => s ++ "_SAFE") (some "prior") "srcName"
      "CLICKHOUSE" (GoValue.mapVal [("database", GoValue.str "mydb")]) = some "mydb" ∧
    getNamespace (fun _ s => s ++ "_SAFE") (fun _ s => s ++ "_SAFE") (some "prior") "srcName"
      "CLICKHOUSE" (GoValue.str "notamap") = none :=
  ⟨(getNamespace_clickhouse_spec _ _ _ _ _).1 "mydb" rfl,
   (getNamespace_clickhouse_spec (fun _ s => s ++ "_SAFE") (fun _ s => s ++ "_SAFE")
      (some "prior") "srcName" [("database", GoValue.str "mydb")]).2.2 (GoValue.str "notamap")
     (fun _ h => GoValue.noConfusion h)⟩

/-! ## C1 -/

/-- The spec's "greatest `end_staging_file_id` over the pair's uploads in
terminal status", 0 when no terminal upload exists. Stated from the spec's
words, to be compared with `lastTerminalEndStagingFileId` (the source's
`ORDER BY id DESC` query). -/
def specGreatestTerminalEnd (uploads : List UploadT) (w : WarehouseT) : Nat :=
  ((uploads.filter (terminalUploadMatches w)).map (fun u => u.endStagingFileId)).foldr max 0

theorem lastTerminalEnd_eq_greatest (uploads : List UploadT) (w : WarehouseT)
    (hmono : ∀ u1 ∈ uploads.filter (terminalUploadMatches w),
             ∀ u2 ∈ uploads.filter (terminalUploadMatches w),
             u1.id ≤ u2.id → u1.endStagingFileId ≤ u2.endStagingFileId) :
    lastTerminalEndStagingFileId uploads w = specGreatestTerminalEnd uploads w := by
  unfold lastTerminalEndStagingFileId specGreatestTerminalEnd
  cases hs : List.insertionSort uploadIdGe (uploads.filter (terminalUploadMatches w)) with
  | nil =>
    have hp := List.perm_insertionSort uploadIdGe (uploads.filter (terminalUploadMatches w))
    rw [hs] at hp
    rw [hp.symm.eq_nil]
    rfl
  | cons u rest =>
    have hp := List.perm_insertionSort uploadIdGe (uploads.filter (terminalUploadMatches w))
    rw [hs] at hp
    have hu : u ∈ uploads.filter (terminalUploadMatches w) :=
      hp.mem_iff.mp (List.mem_cons_self u rest)
    have hsorted := List.sorted_insertionSort uploadIdGe (uploads.filter (terminalUploadMatches w))
    rw [hs] at hsorted
    apply Nat.le_antisymm
    · exact le_foldr_max_of_mem (List.mem_map_of_mem _ hu)
    · apply foldr_max_le
      intro x hx
      rcases List.mem_map.mp hx with ⟨v, hv, rfl⟩
      rcases List.mem_cons.mp (hp.mem_iff.mpr hv) with rfl | hvr
      · exact Nat.le_refl _
      · exact hmono v hv u hu (List.rel_of_sorted_cons hsorted v hvr)

theorem mem_getPendingStagingFiles (uploads : List UploadT) (staging : List StagingFileT)
    (w : WarehouseT) (f : StagingFileT) :
    f ∈ getPendingStagingFiles uploads staging w ↔
      f ∈ staging ∧ lastTerminalEndStagingFileId uploads w < f.id ∧
      f.sourceId = w.sourceId ∧ f.destinationId = w.destinationId := by
  unfold getPendingStagingFiles
  rw [List.mem_insertionSort, List.mem_filter]
  simp [pendingStagingFileMatches, and_assoc]

/-- C1: `getPendingStagingFiles` returns, in ascending id order, exactly
the staging files of the binding's `(source, destination)` pair whose id is
strictly greater than the greatest `end_staging_file_id` over the pair's
terminal (`Exported`/`Aborted`) uploads, and that threshold is 0 when the
pair has no terminal upload (so all of the pair's staging files are
returned). The hypothesis is the spec's own invariant (§3, invariants 1
and 4) that terminal uploads' end ids are nondecreasing in upload id; the
source query picks the end id of the terminal upload with the greatest id,
which under that invariant is the greatest end id. -/
theorem getPendingStagingFiles_pending_suffix (uploads : List UploadT)
    (staging : List StagingFileT) (w : WarehouseT)
    (hmono : ∀ u1 ∈ uploads.filter (terminalUploadMatches w),
             ∀ u2 ∈ uploads.filter (terminalUploadMatches w),
             u1.id ≤ u2.id → u1.endStagingFileId ≤ u2.endStagingFileId) :
    List.Sorted stagingIdLe (getPendingStagingFiles uploads staging w) ∧
    (uploads.filter (terminalUploadMatches w) = [] → specGreatestTerminalEnd uploads w = 0) ∧
    ∀ f, f ∈ getPendingStagingFiles uploads staging w ↔
      (f ∈ staging ∧ f.sourceId = w.sourceId ∧ f.destinationId = w.destinationId ∧
       specGreatestTerminalEnd uploads w < f.id) := by
  refine ⟨List.sorted_insertionSort stagingIdLe _, ?_, ?_⟩
  · intro hnil
    unfold specGreatestTerminalEnd
    rw [hnil]
    rfl
  · intro f
    rw [mem_getPendingStagingFiles, lastTerminalEnd_eq_greatest uploads w hmono]
    tauto

def c1w : WarehouseT := ⟨"S", "D", "POSTGRES", "ns"⟩

def c1Uploads : List UploadT :=
  [{ id := 1, sourceId := "S", destinationId := "D", destinationType := "POSTGRES",
     startStagingFileId := 1, endStagingFileId := 2, status := ExportedDataState,
     attempts := 0, firstAttemptAt := 0 },
   { id := 2, sourceId := "S", destinationId := "D", destinationType := "POSTGRES",
     startStagingFileId := 3, endStagingFileId := 4, status := AbortedState,
     attempts := 0, firstAttemptAt := 0 },
   { id := 3, sourceId := "S", destinationId := "D", destinationType := "POSTGRES",
     startStagingFileId := 5, endStagingFileId := 6, status := ExportingDataState,
     attempts := 1, firstAttemptAt := 0 }]

def c1Staging : List StagingFileT :=
  [⟨5, "loc5", "S", "D"⟩, ⟨4, "loc4", "S", "D"⟩, ⟨6, "loc6", "S", "D"⟩, ⟨6, "loc6x", "X", "Y"⟩]

theorem getPendingStagingFiles_pending_suffix_witness :
    List.Sorted stagingIdLe (getPendingStagingFiles c1Uploads c1Staging c1w) ∧
    ((⟨5, "loc5", "S", "D"⟩ : StagingFileT) ∈ getPendingStagingFiles c1Uploads c1Staging c1w ↔
      ((⟨5, "loc5", "S", "D"⟩ : StagingFileT) ∈ c1Staging ∧
       (⟨5, "loc5", "S", "D"⟩ : StagingFileT).sourceId = c1w.sourceId ∧
       (⟨5, "loc5", "S", "D"⟩ : StagingFileT).destinationId = c1w.destinationId ∧
       specGreatestTerminalEnd c1Uploads c1w < (⟨5, "loc5", "S", "D"⟩ : StagingFileT).id)) :=
  ⟨(getPendingStagingFiles_pending_suffix c1Uploads c1Staging c1w (by decide)).1,
   (getPendingStagingFiles_pending_suffix c1Uploads c1Staging c1w (by decide)).2.2
     ⟨5, "loc5", "S", "D"⟩⟩

/-! ## State-projection helper lemmas -/

theorem setDestInProgress_inRecoveryMap (s : WHState) (w : WarehouseT) (b : Bool) :
    (setDestInProgress s w b).inRecoveryMap = s.inRecoveryMap := by
  unfold setDestInProgress
  split
  · split <;> rfl
  · rfl

theorem setDestInProgress_lastExecMap (s : WHState) (w : WarehouseT) (b : Bool) :
    (setDestInProgress s w b).lastExecMap = s.lastExecMap := by
  unfold setDestInProgress
  split
  · split <;> rfl
  · rfl

theorem setDestInProgress_uploadsTable (s : WHState) (w : WarehouseT) (b : Bool) :
    (setDestInProgress s w b).uploadsTable = s.uploadsTable := by
  unfold setDestInProgress
  split
  · split <;> rfl
  · rfl

theorem setDestInProgress_stagingTable (s : WHState) (w : WarehouseT) (b : Bool) :
    (setDestInProgress s w b).stagingTable = s.stagingTable := by
  unfold setDestInProgress
  split
  · split <;> rfl
  · rfl

theorem createUploadJobs_state (destType : String) (w : WarehouseT) :
    ∀ (cs : List (List StagingFileT)) (s : WHState),
      (createUploadJobs destType w cs s).2.inProgressMap = s.inProgressMap ∧
      (createUploadJobs destType w cs s).2.lastExecMap = s.lastExecMap ∧
      (createUploadJobs destType w cs s).2.inRecoveryMap = s.inRecoveryMap ∧
      (createUploadJobs destType w cs s).2.stagingTable = s.stagingTable := by
  intro cs
  induction cs with
  | nil => intro s; exact ⟨rfl, rfl, rfl, rfl⟩
  | cons c cs ih =>
    intro s
    have h := ih (initUpload destType w c s).2
    exact ⟨h.1, h.2.1, h.2.2.1, h.2.2.2⟩

theorem filter_ne_contains_false (l : List String) (c : String) :
    (l.filter (fun k => !(k == c))).contains c = false := by
  induction l with
  | nil => rfl
  | cons a l ih =>
    by_cases h : a = c
    · subst h
      simp [List.filter_cons, ih]
    · simp only [List.filter_cons]
      have hne : (!(a == c)) = true := by simp [h]
      rw [if_pos hne]
      simp [List.contains_cons, h, Ne.symm h, ih]

theorem filter_ne_not_mem (l : List String) (c : String) :
    c ∉ l.filter (fun d => !(d == c)) := by
  intro h
  have := List.of_mem_filter h
  simp at this

theorem isDestInProgress_clear (s : WHState) (w : WarehouseT) :
    isDestInProgress (setDestInProgress s w false) w = false := by
  unfold isDestInProgress setDestInProgress
  exact filter_ne_contains_false s.inProgressMap (connectionString w)

theorem setLastExec_lookup (now : Int) (s : WHState) (w : WarehouseT) :
    (setLastExec now s w).lastExecMap.lookup (connectionString w) = some now := by
  unfold setLastExec
  simp [List.lookup]

theorem processWarehouse_no_recovery (cfg : MainLoopConfig) (now : Int) (sf : String)
    (cro : Bool) (w : WarehouseT) (s : WHState)
    (hnp : isDestInProgress s w = false)
    (hnr : w.destinationId ∉ s.inRecoveryMap) :
    processWarehouse cfg now sf cro w s =
      processAfterRecovery cfg now sf w (setDestInProgress s w true) := by
  unfold processWarehouse
  rw [if_neg (by simp [hnp]), if_neg (by rw [setDestInProgress_inRecoveryMap]; exact hnr)]

theorem processAfterRecovery_inRecoveryMap (cfg : MainLoopConfig) (now : Int) (sf : String)
    (w : WarehouseT) (s : WHState) :
    (processAfterRecovery cfg now sf w s).1.inRecoveryMap = s.inRecoveryMap := by
  unfold processAfterRecovery
  by_cases h1 : getPendingUploads s.uploadsTable cfg.destType w = []
  · rw [if_pos h1]
    by_cases h2 : canStartUpload now s.lastExecMap cfg.uploadFreqInS w sf = false
    · rw [if_pos h2]
      exact setDestInProgress_inRecoveryMap s w false
    · rw [if_neg h2]
      unfold freshFilesPath
      by_cases h3 : getPendingStagingFiles (setLastExec now s w).uploadsTable
          (setLastExec now s w).stagingTable w = []
      · rw [if_pos h3]
        exact setDestInProgress_inRecoveryMap _ w false
      · rw [if_neg h3]
        exact (createUploadJobs_state cfg.destType w _ _).2.2.1
  · rw [if_neg h1]
    unfold pendingUploadsPath
    by_cases h4 : observedJobs (pendingUploadsLoop (pendingGate cfg now) (pendingFiles s w)
        (getPendingUploads s.uploadsTable cfg.destType w)) = []
    · rw [if_pos h4]
      by_cases h5 : (pendingUploadsLoop (pendingGate cfg now) (pendingFiles s w)
          (getPendingUploads s.uploadsTable cfg.destType w)).rejected = true
      · rw [if_pos h5]
        exact setDestInProgress_inRecoveryMap s w false
      · rw [if_neg h5]
    · rw [if_neg h4]
      by_cases h5 : (pendingUploadsLoop (pendingGate cfg now) (pendingFiles s w)
          (getPendingUploads s.uploadsTable cfg.destType w)).rejected = true
      · rw [if_pos h5]
        exact setDestInProgress_inRecoveryMap s w false
      · rw [if_neg h5]

theorem processAfterRecovery_events_head (cfg : MainLoopConfig) (now : Int) (sf : String)
    (w : WarehouseT) (s : WHState) :
    ∃ rest, (processAfterRecovery cfg now sf w s).2 =
      MainLoopEvent.queryPendingUploads :: rest := by
  unfold processAfterRecovery
  by_cases h1 : getPendingUploads s.uploadsTable cfg.destType w = []
  · rw [if_pos h1]
    by_cases h2 : canStartUpload now s.lastExecMap cfg.uploadFreqInS w sf = false
    · rw [if_pos h2]
      exact ⟨[], rfl⟩
    · rw [if_neg h2]
      unfold freshFilesPath
      by_cases h3 : getPendingStagingFiles (setLastExec now s w).uploadsTable
          (setLastExec now s w).stagingTable w = []
      · rw [if_pos h3]
        exact ⟨_, rfl⟩
      · rw [if_neg h3]
        exact ⟨_, rfl⟩
  · rw [if_neg h1]
    unfold pendingUploadsPath
    by_cases h4 : observedJobs (pendingUploadsLoop (pendingGate cfg now) (pendingFiles s w)
        (getPendingUploads s.uploadsTable cfg.destType w)) = []
    · rw [if_pos h4]
      exact ⟨[], rfl⟩
    · rw [if_neg h4]
      exact ⟨_, rfl⟩

/-! ## C2 -/

/-- C2: for a binding with no pending uploads, a fresh upload pass happens
only when the frequency gate admits — the gate refuses exactly when the
pair has a recorded `lastExec` within `syncFrequency` minutes
(`uploadFreqInS` seconds when `syncFrequency` is unset); when it refuses,
nothing is enqueued, no upload row is created, `lastExec` is unchanged and
the in-progress bit is cleared; when it admits, `lastExec` is set to `now`
*before* the staging files are fetched and before any batch is enqueued
(the `setLastExecAt` event precedes `queryPendingStagingFiles` and
`enqueue` in the emitted trace), and the resulting state records
`lastExec = now`. -/
theorem mainLoop_frequencyGate_spec (cfg : MainLoopConfig) (now : Int) (sf : String)
    (cro : Bool) (w : WarehouseT) (s : WHState)
    (hnp : isDestInProgress s w = false)
    (hnr : w.destinationId ∉ s.inRecoveryMap)
    (hpend : getPendingUploads s.uploadsTable cfg.destType w = []) :
    (uploadFrequencyExceeded now s.lastExecMap cfg.uploadFreqInS w sf = true ↔
      ∃ t, s.lastExecMap.lookup (connectionString w) = some t ∧
        now - t < (if sf ≠ "" then parseInt64 sf * 60 else cfg.uploadFreqInS)) ∧
    (canStartUpload now s.lastExecMap cfg.uploadFreqInS w sf = false →
      (processWarehouse cfg now sf cro w s).2 = [MainLoopEvent.queryPendingUploads] ∧
      (processWarehouse cfg now sf cro w s).1.uploadsTable = s.uploadsTable ∧
      (processWarehouse cfg now sf cro w s).1.lastExecMap = s.lastExecMap ∧
      isDestInProgress (processWarehouse cfg now sf cro w s).1 w = false) ∧
    (canStartUpload now s.lastExecMap cfg.uploadFreqInS w sf = true →
      (processWarehouse cfg now sf cro w s).2 =
        [MainLoopEvent.queryPendingUploads,
         MainLoopEvent.setLastExecAt (connectionString w) now,
         MainLoopEvent.queryPendingStagingFiles] ++
        (if getPendingStagingFiles s.uploadsTable s.stagingTable w = [] then []
         else [MainLoopEvent.enqueue
            (createUploadJobs cfg.destType w
              (chunkList cfg.stagingFilesBatchSize
                (getPendingStagingFiles s.uploadsTable s.stagingTable w))
              (setLastExec now (setDestInProgress s w true) w)).1]) ∧
      (processWarehouse cfg now sf cro w s).1.lastExecMap.lookup (connectionString w) =
        some now) := by
  have hred := processWarehouse_no_recovery cfg now sf cro w s hnp hnr
  have hup0 : (setDestInProgress s w true).uploadsTable = s.uploadsTable :=
    setDestInProgress_uploadsTable s w true
  have hle0 : (setDestInProgress s w true).lastExecMap = s.lastExecMap :=
    setDestInProgress_lastExecMap s w true
  have hst0 : (setDestInProgress s w true).stagingTable = s.stagingTable :=
    setDestInProgress_stagingTable s w true
  have hpend0 : getPendingUploads (setDestInProgress s w true).uploadsTable cfg.destType w = [] := by
    rw [hup0]
    exact hpend
  refine ⟨?_, ?_, ?_⟩
  · unfold uploadFrequencyExceeded
    cases hl : s.lastExecMap.lookup (connectionString w) with
    | none => simp [hl]
    | some t => simp [hl]
  · intro hgate
    have hgate0 : canStartUpload now (setDestInProgress s w true).lastExecMap
        cfg.uploadFreqInS w sf = false := by
      rw [hle0]
      exact hgate
    rw [hred]
    unfold processAfterRecovery
    rw [if_pos hpend0, if_pos hgate0]
    refine ⟨rfl, ?_, ?_, ?_⟩
    · rw [setDestInProgress_uploadsTable, hup0]
    · rw [setDestInProgress_lastExecMap, hle0]
    · exact isDestInProgress_clear _ w
  · intro hgate
    have hgate0 : ¬(canStartUpload now (setDestInProgress s w true).lastExecMap
        cfg.uploadFreqInS w sf = false) := by
      rw [hle0, hgate]
      simp
    rw [hred]
    unfold processAfterRecovery
    rw [if_pos hpend0, if_neg hgate0]
    unfold freshFilesPath
    have hup1 : (setLastExec now (setDestInProgress s w true) w).uploadsTable = s.uploadsTable :=
      hup0
    have hst1 : (setLastExec now (setDestInProgress s w true) w).stagingTable = s.stagingTable :=
      hst0
    rw [hup1, hst1]
    by_cases hf : getPendingStagingFiles s.uploadsTable s.stagingTable w = []
    · rw [if_pos hf, if_pos hf]
      refine ⟨rfl, ?_⟩
      rw [setDestInProgress_lastExecMap]
      exact setLastExec_lookup now (setDestInProgress s w true) w
    · rw [if_neg hf, if_neg hf]
      refine ⟨rfl, ?_⟩
      rw [(createUploadJobs_state cfg.destType w _ _).2.1]
      exact setLastExec_lookup now (setDestInProgress s w true) w

def c2w : WarehouseT := ⟨"S2", "D2", "POSTGRES", "ns"⟩

def c2cfg : MainLoopConfig := ⟨"POSTGRES", 1800, 3, 10800, 240⟩

def c2State : WHState :=
  { inProgressMap := [], lastExecMap := [], inRecoveryMap := [],
    uploadsTable := [], stagingTable := [⟨1, "a", "S2", "D2"⟩], nextUploadId := 1 }

theorem mainLoop_frequencyGate_spec_witness :
    getPendingUploads c2State.uploadsTable c2cfg.destType c2w = [] ∧
    canStartUpload 5000 c2State.lastExecMap c2cfg.uploadFreqInS c2w "" = true ∧
    (processWarehouse c2cfg 5000 "" true c2w c2State).1.lastExecMap.lookup
      (connectionString c2w) = some 5000 :=
  ⟨rfl, rfl,
   ((mainLoop_frequencyGate_spec c2cfg 5000 "" true c2w c2State rfl
      (List.not_mem_nil _) rfl).2.2 rfl).2⟩

/-! ## C8 -/

/-- C8: for a binding whose destination id is in the recovery set (and not
in progress), `CrashRecover` runs before any pending-upload discovery: on
failure the destination stays in the recovery set, the in-progress bit is
cleared and nothing is enqueued (the trace is just the failed
`crashRecover` event, so recovery is retried on a later tick); on success
the destination is removed from the recovery set and the normal
pending-uploads path proceeds in the same tick (the trace is `crashRecover`
followed immediately by `queryPendingUploads`). -/
theorem mainLoop_crashRecovery_spec (cfg : MainLoopConfig) (now : Int) (sf : String)
    (w : WarehouseT) (s : WHState)
    (hnp : isDestInProgress s w = false)
    (hrec : w.destinationId ∈ s.inRecoveryMap) :
    ((processWarehouse cfg now sf false w s).1.inRecoveryMap = s.inRecoveryMap ∧
     isDestInProgress (processWarehouse cfg now sf false w s).1 w = false ∧
     (processWarehouse cfg now sf false w s).2 =
       [MainLoopEvent.crashRecover w.destinationId false]) ∧
    (w.destinationId ∉ (processWarehouse cfg now sf true w s).1.inRecoveryMap ∧
     ∃ rest, (processWarehouse cfg now sf true w s).2 =
       MainLoopEvent.crashRecover w.destinationId true ::
       MainLoopEvent.queryPendingUploads :: rest) := by
  have hrec0 : w.destinationId ∈ (setDestInProgress s w true).inRecoveryMap := by
    rw [setDestInProgress_inRecoveryMap]
    exact hrec
  constructor
  · unfold processWarehouse
    rw [if_neg (by simp [hnp]), if_pos hrec0, if_neg (by simp)]
    refine ⟨?_, ?_, rfl⟩
    · rw [setDestInProgress_inRecoveryMap, setDestInProgress_inRecoveryMap]
    · exact isDestInProgress_clear _ w
  · unfold processWarehouse
    rw [if_neg (by simp [hnp]), if_pos hrec0, if_pos rfl]
    constructor
    · rw [processAfterRecovery_inRecoveryMap]
      unfold recoveryErase
      exact filter_ne_not_mem _ _
    · rcases processAfterRecovery_events_head cfg now sf w
        (recoveryErase (setDestInProgress s w true) w) with ⟨rest, hr⟩
      exact ⟨rest, by rw [hr]⟩

def c8w : WarehouseT := ⟨"S8", "D8", "RS", "ns"⟩

def c8cfg : MainLoopConfig := ⟨"RS", 1800, 3, 10800, 240⟩

def c8State : WHState :=
  { inProgressMap := [], lastExecMap := [], inRecoveryMap := ["D8"],
    uploadsTable := [], stagingTable := [], nextUploadId := 1 }

theorem mainLoop_crashRecovery_spec_witness :
    isDestInProgress c8State c8w = false ∧
    c8w.destinationId ∈ c8State.inRecoveryMap ∧
    (processWarehouse c8cfg 0 "" false c8w c8State).2 =
      [MainLoopEvent.crashRecover c8w.destinationId false] ∧
    c8w.destinationId ∉ (processWarehouse c8cfg 0 "" true c8w c8State).1.inRecoveryMap :=
  ⟨rfl, by decide,
   (mainLoop_crashRecovery_spec c8cfg 0 "" c8w c8State rfl (by decide)).1.2.2,
   (mainLoop_crashRecovery_spec c8cfg 0 "" c8w c8State rfl (by decide)).2.1⟩

/-! ## C3 -/

def c3w : WarehouseT := ⟨"S3", "D3", "POSTGRES", "ns"⟩

def c3cfg : MainLoopConfig := ⟨"POSTGRES", 1800, 3, 10800, 240⟩

def c3Staging : List StagingFileT := [⟨1, "a", "S3", "D3"⟩, ⟨2, "b", "S3", "D3"⟩]

def c3Upload (firstAttemptAt : Int) : UploadT :=
  { id := 1, sourceId := "S3", destinationId := "D3", destinationType := "POSTGRES",
    startStagingFileId := 1, endStagingFileId := 2, status := ExportingDataFailedState,
    attempts := 5, firstAttemptAt := firstAttemptAt }

def c3State (firstAttemptAt : Int) : WHState :=
  { inProgressMap := [], lastExecMap := [], inRecoveryMap := [],
    uploadsTable := [c3Upload firstAttemptAt], stagingTable := c3Staging, nextUploadId := 2 }

/-- C3: the retry gate admits a pending upload iff `attempts <
minRetryAttempts` OR `now - firstAttemptAt < retryTimeWindow` (the
definitional content of the spec-modelled `canStartPendingUpload`); in
particular, with `minRetryAttempts = 3` and `retryTimeWindow = 3h`, an
upload with `attempts = 5` and `firstAttemptAt` ten minutes ago is admitted
by the main loop and its job is enqueued, while the same upload with
`firstAttemptAt` four hours ago is rejected: nothing is enqueued and the
pair's in-progress bit is cleared. Times in seconds, `now = 100000`. -/
theorem mainLoop_retryGate_spec :
    (∀ (now mra rtw : Int) (u : UploadT),
      canStartPendingUpload now mra rtw u =
        (decide (u.attempts < mra) || decide (now - u.firstAttemptAt < rtw))) ∧
    canStartPendingUpload 100000 3 10800 (c3Upload (100000 - 600)) = true ∧
    (processWarehouse c3cfg 100000 "" true c3w (c3State (100000 - 600))).2 =
      [MainLoopEvent.queryPendingUploads,
       MainLoopEvent.enqueue [UploadJobT.mk (c3Upload (100000 - 600)) c3Staging]] ∧
    canStartPendingUpload 100000 3 10800 (c3Upload (100000 - 14400)) = false ∧
    (processWarehouse c3cfg 100000 "" true c3w (c3State (100000 - 14400))).2 =
      [MainLoopEvent.queryPendingUploads] ∧
    isDestInProgress (processWarehouse c3cfg 100000 "" true c3w
      (c3State (100000 - 14400))).1 c3w = false :=
  ⟨fun _ _ _ _ => rfl, by decide, by decide, by decide, by decide, by decide⟩

/-! ## C4 -/

def c4w : WarehouseT := ⟨"S4", "D4", "POSTGRES", "ns"⟩

def c4cfg : MainLoopConfig := ⟨"POSTGRES", 1800, 3, 10800, 240⟩

def c4u1 : UploadT :=
  { id := 1, sourceId := "S4", destinationId := "D4", destinationType := "POSTGRES",
    startStagingFileId := 1, endStagingFileId := 2, status := WaitingState,
    attempts := 0, firstAttemptAt := 0 }

def c4u2 : UploadT :=
  { id := 2, sourceId := "S4", destinationId := "D4", destinationType := "POSTGRES",
    startStagingFileId := 3, endStagingFileId := 4, status := WaitingState,
    attempts := 0, firstAttemptAt := 0 }

def c4f1 : StagingFileT := ⟨1, "a", "S4", "D4"⟩
def c4f2 : StagingFileT := ⟨2, "b", "S4", "D4"⟩
def c4f3 : StagingFileT := ⟨3, "c", "S4", "D4"⟩
def c4f4 : StagingFileT := ⟨4, "d", "S4", "D4"⟩

def c4State : WHState :=
  { inProgressMap := [], lastExecMap := [], inRecoveryMap := [],
    uploadsTable := [c4u1, c4u2], stagingTable := [c4f1, c4f2, c4f3, c4f4],
    nextUploadId := 3 }

/-- C4 (code bug): with two pending uploads `c4u1 < c4u2`, both admitted by
the retry gate, the batch the worker observes contains two jobs whose
`stagingFiles` are the two correct per-upload ranges, but whose `upload`
fields BOTH expose `c4u2` — every job stores `upload: &pendingUpload`, a
pointer to the single Go range-loop variable, whose final value is the last
iterated upload — so no job in the batch carries the first pending upload
`c4u1`, contradicting the claim that each admitted upload gets a job whose
upload field equals it. -/
theorem pendingUpload_jobs_share_loop_variable :
    getPendingUploads c4State.uploadsTable c4cfg.destType c4w = [c4u1, c4u2] ∧
    pendingGate c4cfg 1000 c4u1 = true ∧
    pendingGate c4cfg 1000 c4u2 = true ∧
    (processWarehouse c4cfg 1000 "" true c4w c4State).2 =
      [MainLoopEvent.queryPendingUploads,
       MainLoopEvent.enqueue
         [UploadJobT.mk c4u2 [c4f1, c4f2], UploadJobT.mk c4u2 [c4f3, c4f4]]] ∧
    (∀ j ∈ [UploadJobT.mk c4u2 [c4f1, c4f2], UploadJobT.mk c4u2 [c4f3, c4f4]],
      j.upload ≠ c4u1) :=
  ⟨by decide, by decide, by decide, by decide, by decide⟩

/-! ## C9 -/

theorem chunkListAux_nil_list (B fuel : Nat) : chunkListAux B fuel ([] : List α) = [] := by
  cases fuel <;> rfl

theorem chunkListAux_flatten (B : Nat) (hB : 0 < B) :
    ∀ (fuel : Nat) (l : List α), l.length ≤ fuel → (chunkListAux B fuel l).flatten = l := by
  intro fuel
  induction fuel with
  | zero =>
    intro l hl
    rw [List.eq_nil_of_length_eq_zero (Nat.le_zero.mp hl)]
    rfl
  | succ fuel ih =>
    intro l hl
    cases l with
    | nil => rfl
    | cons a l =>
      have hd : ((a :: l).drop B).length ≤ fuel := by
        rw [List.length_drop]
        simp only [List.length_cons] at hl ⊢
        omega
      show ((a :: l).take B :: chunkListAux B fuel ((a :: l).drop B)).flatten = a :: l
      rw [List.flatten_cons, ih _ hd, List.take_append_drop]

theorem chunkListAux_mem_chunks (B : Nat) (hB : 0 < B) :
    ∀ (fuel : Nat) (l : List α), ∀ c ∈ chunkListAux B fuel l, c ≠ [] ∧ c.length ≤ B := by
  intro fuel
  induction fuel with
  | zero =>
    intro l c hc
    cases hc
  | succ fuel ih =>
    intro l c hc
    cases l with
    | nil =>
      rw [chunkListAux_nil_list] at hc
      cases hc
    | cons a l =>
      rcases List.mem_cons.mp hc with rfl | h2
      · constructor
        · cases B with
          | zero => omega
          | succ B => simp
        · exact List.length_take_le B (a :: l)
      · exact ih _ c h2

theorem chunkListAux_dropLast_length (B : Nat) (hB : 0 < B) :
    ∀ (fuel : Nat) (l : List α), l.length ≤ fuel →
      ∀ c ∈ (chunkListAux B fuel l).dropLast, c.length = B := by
  intro fuel
  induction fuel with
  | zero =>
    intro l hl c hc
    rw [List.eq_nil_of_length_eq_zero (Nat.le_zero.mp hl)] at hc
    cases hc
  | succ fuel ih =>
    intro l hl c hc
    cases l with
    | nil =>
      rw [chunkListAux_nil_list] at hc
      cases hc
    | cons a l =>
      have hd : ((a :: l).drop B).length ≤ fuel := by
        rw [List.length_drop]
        simp only [List.length_cons] at hl ⊢
        omega
      by_cases hr : chunkListAux B fuel ((a :: l).drop B) = []
      · have hnil : (chunkListAux B (fuel + 1) (a :: l)).dropLast = [] := by
          show ((a :: l).take B :: chunkListAux B fuel ((a :: l).drop B)).dropLast = []
          rw [hr]
          rfl
        rw [hnil] at hc
        cases hc
      · rcases List.exists_cons_of_ne_nil hr with ⟨b, bs, hbs⟩
        have hstep : (chunkListAux B (fuel + 1) (a :: l)).dropLast =
            (a :: l).take B :: (chunkListAux B fuel ((a :: l).drop B)).dropLast := by
          show ((a :: l).take B :: chunkListAux B fuel ((a :: l).drop B)).dropLast = _
          rw [hbs]
          rfl
        rw [hstep] at hc
        rcases List.mem_cons.mp hc with rfl | h2
        · have hdropne : (a :: l).drop B ≠ [] := by
            intro h0
            apply hr
            rw [h0, chunkListAux_nil_list]
          have hlen : B < (a :: l).length := by
            by_contra hle
            push_neg at hle
            exact hdropne (List.drop_eq_nil_of_le hle)
          rw [List.length_take]
          exact Nat.min_eq_left (Nat.le_of_lt hlen)
        · exact ih _ hd c h2

theorem chunkList_flatten (B : Nat) (hB : 0 < B) (l : List α) :
    (chunkList B l).flatten = l :=
  chunkListAux_flatten B hB l.length l (Nat.le_refl _)

theorem chunkList_mem_chunks (B : Nat) (hB : 0 < B) (l : List α) :
    ∀ c ∈ chunkList B l, c ≠ [] ∧ c.length ≤ B :=
  chunkListAux_mem_chunks B hB l.length l

theorem chunkList_dropLast_length (B : Nat) (hB : 0 < B) (l : List α) :
    ∀ c ∈ (chunkList B l).dropLast, c.length = B :=
  chunkListAux_dropLast_length B hB l.length l (Nat.le_refl _)

theorem createUploadJobs_jobs (destType : String) (w : WarehouseT) :
    ∀ (cs : List (List StagingFileT)) (s : WHState),
      ((createUploadJobs destType w cs s).1.map (fun j => j.stagingFiles) = cs) ∧
      ∀ j ∈ (createUploadJobs destType w cs s).1,
        j.upload.status = WaitingState ∧
        j.upload.startStagingFileId = ((j.stagingFiles.head?.map (fun f => f.id)).getD 0) ∧
        j.upload.endStagingFileId = ((j.stagingFiles.getLast?.map (fun f => f.id)).getD 0) ∧
        j.upload.sourceId = w.sourceId ∧
        j.upload.destinationId = w.destinationId ∧
        j.upload.destinationType = destType := by
  intro cs
  induction cs with
  | nil =>
    intro s
    refine ⟨rfl, ?_⟩
    intro j hj
    cases hj
  | cons c cs ih =>
    intro s
    constructor
    · show (UploadJobT.mk (initUpload destType w c s).1 c ::
          (createUploadJobs destType w cs (initUpload destType w c s).2).1).map
          (fun j => j.stagingFiles) = c :: cs
      rw [List.map_cons, (ih _).1]
    · intro j hj
      rcases List.mem_cons.mp hj with rfl | h2
      · exact ⟨rfl, rfl, rfl, rfl, rfl, rfl⟩
      · exact (ih _).2 j h2

/-- C9: for a binding with no pending uploads, an admitting frequency gate
and a nonempty list of pending staging files, one main-loop tick partitions
the files in id order into consecutive chunks of `stagingFilesBatchSize`
(every chunk nonempty and of length at most the batch size, every chunk but
the last of length exactly the batch size, and the chunks concatenating
back to the file list), creates one `Waiting` upload per chunk covering
that chunk's inclusive `[first id .. last id]` range for the pair, and
enqueues all resulting jobs as a single batch: the trace ends in one
`enqueue` event carrying every job. -/
theorem mainLoop_chunking_spec (cfg : MainLoopConfig) (now : Int) (sf : String)
    (cro : Bool) (w : WarehouseT) (s : WHState)
    (hB : 0 < cfg.stagingFilesBatchSize)
    (hnp : isDestInProgress s w = false)
    (hnr : w.destinationId ∉ s.inRecoveryMap)
    (hpend : getPendingUploads s.uploadsTable cfg.destType w = [])
    (hgate : canStartUpload now s.lastExecMap cfg.uploadFreqInS w sf = true)
    (hfiles : getPendingStagingFiles s.uploadsTable s.stagingTable w ≠ []) :
    (processWarehouse cfg now sf cro w s).2 =
      [MainLoopEvent.queryPendingUploads,
       MainLoopEvent.setLastExecAt (connectionString w) now,
       MainLoopEvent.queryPendingStagingFiles,
       MainLoopEvent.enqueue
         (createUploadJobs cfg.destType w
           (chunkList cfg.stagingFilesBatchSize
             (getPendingStagingFiles s.uploadsTable s.stagingTable w))
           (setLastExec now (setDestInProgress s w true) w)).1] ∧
    ((createUploadJobs cfg.destType w
        (chunkList cfg.stagingFilesBatchSize
          (getPendingStagingFiles s.uploadsTable s.stagingTable w))
        (setLastExec now (setDestInProgress s w true) w)).1.map
      (fun j => j.stagingFiles)) =
      chunkList cfg.stagingFilesBatchSize
        (getPendingStagingFiles s.uploadsTable s.stagingTable w) ∧
    (chunkList cfg.stagingFilesBatchSize
        (getPendingStagingFiles s.uploadsTable s.stagingTable w)).flatten =
      getPendingStagingFiles s.uploadsTable s.stagingTable w ∧
    (∀ c ∈ chunkList cfg.stagingFilesBatchSize
        (getPendingStagingFiles s.uploadsTable s.stagingTable w),
      c ≠ [] ∧ c.length ≤ cfg.stagingFilesBatchSize) ∧
    (∀ c ∈ (chunkList cfg.stagingFilesBatchSize
        (getPendingStagingFiles s.uploadsTable s.stagingTable w)).dropLast,
      c.length = cfg.stagingFilesBatchSize) ∧
    (∀ j ∈ (createUploadJobs cfg.destType w
        (chunkList cfg.stagingFilesBatchSize
          (getPendingStagingFiles s.uploadsTable s.stagingTable w))
        (setLastExec now (setDestInProgress s w true) w)).1,
      j.upload.status = WaitingState ∧
      j.upload.startStagingFileId = ((j.stagingFiles.head?.map (fun f => f.id)).getD 0) ∧
      j.upload.endStagingFileId = ((j.stagingFiles.getLast?.map (fun f => f.id)).getD 0)) := by
  have hred := processWarehouse_no_recovery cfg now sf cro w s hnp hnr
  have hup0 : (setDestInProgress s w true).uploadsTable = s.uploadsTable :=
    setDestInProgress_uploadsTable s w true
  have hle0 : (setDestInProgress s w true).lastExecMap = s.lastExecMap :=
    setDestInProgress_lastExecMap s w true
  have hst0 : (setDestInProgress s w true).stagingTable = s.stagingTable :=
    setDestInProgress_stagingTable s w true
  have hpend0 : getPendingUploads (setDestInProgress s w true).uploadsTable cfg.destType w = [] := by
    rw [hup0]
    exact hpend
  have hgate0 : ¬(canStartUpload now (setDestInProgress s w true).lastExecMap
      cfg.uploadFreqInS w sf = false) := by
    rw [hle0, hgate]
    simp
  refine ⟨?_, (createUploadJobs_jobs cfg.destType w _ _).1,
    chunkList_flatten _ hB _, chunkList_mem_chunks _ hB _,
    chunkList_dropLast_length _ hB _, ?_⟩
  · rw [hred]
    unfold processAfterRecovery
    rw [if_pos hpend0, if_neg hgate0]
    unfold freshFilesPath
    have hup1 : (setLastExec now (setDestInProgress s w true) w).uploadsTable = s.uploadsTable :=
      hup0
    have hst1 : (setLastExec now (setDestInProgress s w true) w).stagingTable = s.stagingTable :=
      hst0
    rw [hup1, hst1]
    rw [if_neg hfiles]
  · intro j hj
    have h := (createUploadJobs_jobs cfg.destType w _ _).2 j hj
    exact ⟨h.1, h.2.1, h.2.2.1⟩

def c9w : WarehouseT := ⟨"S9", "D9", "POSTGRES", "ns"⟩

def c9cfg : MainLoopConfig := ⟨"POSTGRES", 1800, 3, 10800, 200⟩

def c9Files : List StagingFileT :=
  (List.range 500).map (fun i => ⟨i + 1, "loc", "S9", "D9"⟩)

def c9State : WHState :=
  { inProgressMap := [], lastExecMap := [], inRecoveryMap := [],
    uploadsTable := [], stagingTable := c9Files, nextUploadId := 1 }

theorem mainLoop_chunking_spec_witness :
    0 < c9cfg.stagingFilesBatchSize ∧
    getPendingUploads c9State.uploadsTable c9cfg.destType c9w = [] ∧
    getPendingStagingFiles c9State.uploadsTable c9State.stagingTable c9w ≠ [] ∧
    (chunkList c9cfg.stagingFilesBatchSize
        (getPendingStagingFiles c9State.uploadsTable c9State.stagingTable c9w)).flatten =
      getPendingStagingFiles c9State.uploadsTable c9State.stagingTable c9w ∧
    ((createUploadJobs c9cfg.destType c9w
        (chunkList c9cfg.stagingFilesBatchSize
          (getPendingStagingFiles c9State.uploadsTable c9State.stagingTable c9w))
        (setLastExec 7777 (setDestInProgress c9State c9w true) c9w)).1.map
      (fun j => (j.upload.startStagingFileId, j.upload.endStagingFileId))) =
      [(1, 200), (201, 400), (401, 500)] :=
  ⟨by decide, by decide, by decide,
   (mainLoop_chunking_spec c9cfg 7777 "" true c9w c9State (by decide) rfl
      (List.not_mem_nil _) (by decide) rfl (by decide)).2.2.1,
   by decide⟩
